import Mathlib

/-!
SwaggerCrud: the book routes of `src/routes/Book.js`.

A shallow embedding of the five Express handlers of `src/routes/Book.js` over the
module-level array `books`, and the properties of the CRUD contract proved of it.

The module-level `const books = []` becomes an explicit `List Book` threaded through
every handler: a handler takes the array as it is when the request arrives and returns
the array as it is when the handler is done, together with what the handler did to the
response object.
-/

namespace SwaggerCrud

/-! ## Values -/

/-- A JavaScript value as `express.json()` can put it into `req.body` (or leave it
`undefined`). Numbers carry an integer payload; no handler inspects a field value, it
is only moved from the request into the array and from the array into a response. -/
inductive JsVal where
  | undefined : JsVal
  | null : JsVal
  | bool (b : Bool) : JsVal
  | num (n : Int) : JsVal
  | str (s : String) : JsVal
  | arr (items : List JsVal) : JsVal
  | obj (props : List (String × JsVal)) : JsVal

/-- The exceptions a handler of `Book.js` can raise. -/
inductive JsError where
  | typeError : JsError
  | referenceError : JsError

/-- An element of `books`: the object literal `{ id, title, author, publishedDate, summary }`
built by `router.post` (line 154) and rebuilt with the same five keys by the spread of
`router.put` (line 226). `id` is the result of `Date.now().toString()`, a string; the
other four hold whatever the request body held under that key, `undefined` included. -/
structure Book where
  id : String
  title : JsVal
  author : JsVal
  publishedDate : JsVal
  summary : JsVal

/-- The four constants bound by `const { title, author, publishedDate, summary } = req.body`. -/
structure Fields where
  title : JsVal
  author : JsVal
  publishedDate : JsVal
  summary : JsVal

/-- The argument of `res.json(...)`. -/
inductive Payload where
  /-- The array itself: `json(books)`. -/
  | books (all : List Book) : Payload
  /-- A bare book: `json(newBook)`. -/
  | book (b : Book) : Payload
  /-- The literal `{ "message": ... }`. -/
  | message (message : String) : Payload
  /-- The literal `{ "message": ..., "body": ... }`. -/
  | messageBody (message : String) (body : Book) : Payload

/-- What `res.status(code).json(payload)` sends (`res.json` alone sends status 200). -/
structure Response where
  status : Nat
  payload : Payload

/-- How a handler invocation ends: it has sent a response, or an exception left it. -/
inductive Outcome where
  | sent (r : Response) : Outcome
  | uncaught (e : JsError) : Outcome

/-! ## Language primitives the handlers use -/

/-- The decimal digit `d` as a character. -/
def digitChar (d : Nat) : Char := Char.ofNat (48 + d % 10)

/-- The decimal digits of `n`, most significant first, in front of `acc`; `fuel` bounds
the number of digits. -/
def natDigits : Nat → Nat → List Char → List Char
  | 0, _, acc => acc
  | fuel + 1, n, acc =>
    if n / 10 = 0 then digitChar n :: acc
    else natDigits fuel (n / 10) (digitChar n :: acc)

/-- `Number.prototype.toString()` on an integer in the range of `Date.now()` (time
values are clipped to 8.64e15 in magnitude, below the 1e21 where the exponent form
starts): a minus sign for a negative number, then the decimal digits. -/
def numberToString : Int → String
  | Int.ofNat m => String.mk (natDigits (m + 1) m [])
  | Int.negSucc m => String.mk ('-' :: natDigits (m + 2) (m + 1) [])

/-- `a === b` on two strings. -/
def strictEq (a b : String) : Bool := a == b

/-- `a == b` on two strings: the operands have the same type, so the loose comparison
is the strict one (no coercion takes place). -/
def looseEq (a b : String) : Bool := strictEq a b

/-- Reading property `key` of a value other than `undefined` and `null`. An object
answers with its own property or `undefined`; an array, a string, a number or a boolean
has none of the four keys the handlers read, on itself or on its prototype. -/
def getProp (v : JsVal) (key : String) : JsVal :=
  match v with
  | JsVal.obj props => (props.lookup key).getD JsVal.undefined
  | _ => JsVal.undefined

/-- `const { title, author, publishedDate, summary } = req.body`: a `TypeError` when
`req.body` is `undefined` or `null`, four property reads otherwise. -/
def destructureBody : JsVal → Except JsError Fields
  | JsVal.undefined => Except.error JsError.typeError
  | JsVal.null => Except.error JsError.typeError
  | v => Except.ok
      { title := getProp v "title", author := getProp v "author",
        publishedDate := getProp v "publishedDate", summary := getProp v "summary" }

/-- `books.findIndex(p)`: the index of the first element satisfying `p`; `none` stands
for the `-1` that JavaScript returns when there is no such element. -/
def findIndex (p : Book → Bool) : (books : List Book) → Option (Fin books.length)
  | [] => none
  | b :: bs => if p b then some ⟨0, Nat.succ_pos _⟩ else (findIndex p bs).map Fin.succ

/-! ## The handlers -/

/-- `router.get("/books")`, lines 41-43. -/
def getBooks (books : List Book) : List Book × Outcome :=
  (books, Outcome.sent ⟨200, Payload.books books⟩)

/-- `router.get("/books/:id")`, lines 86-98. Nothing in the `try` block can throw
(`req.params` is always an object), so the `catch` block is never entered. -/
def getBook (books : List Book) (id : String) : List Book × Outcome :=
  match findIndex (fun book => strictEq book.id id) books with
  | some bookIndex =>
    (books, Outcome.sent
      ⟨200, Payload.messageBody ("This is the book with id " ++ id) (books.get bookIndex)⟩)
  | none =>
    (books, Outcome.sent ⟨404, Payload.message ("The book with id " ++ id ++ " not found")⟩)

/-- `router.post("/books")`, lines 151-160. `now` is the value of `Date.now()`. The only
statement of the `try` block that can throw is the destructuring, before `books.push`. -/
def postBook (books : List Book) (now : Int) (body : JsVal) : List Book × Outcome :=
  match destructureBody body with
  | Except.ok f =>
    let newBook : Book :=
      { id := numberToString now, title := f.title, author := f.author,
        publishedDate := f.publishedDate, summary := f.summary }
    (books ++ [newBook], Outcome.sent ⟨200, Payload.book newBook⟩)
  | Except.error _ =>
    (books, Outcome.sent ⟨500, Payload.message "Unable to create new book"⟩)

/-- `router.put("/books/:id")`, lines 220-235. The destructuring of `req.body` is the
only statement of the `try` block that can throw. The `catch` block builds its message
from `id`, a `const` of the `try` block that is not in scope there (and the module has
no other `id`), so evaluating the template literal raises a `ReferenceError` before
`json` is called: the exception leaves the handler and nothing was sent. -/
def putBook (books : List Book) (id : String) (body : JsVal) : List Book × Outcome :=
  match destructureBody body with
  | Except.ok f =>
    match findIndex (fun book => strictEq book.id id) books with
    | some bookIndex =>
      let updatedBook : Book :=
        { books.get bookIndex with
          title := f.title, author := f.author,
          publishedDate := f.publishedDate, summary := f.summary }
      (books.set bookIndex.val updatedBook, Outcome.sent
        ⟨200, Payload.messageBody ("Successfully edited the book with id " ++ id) updatedBook⟩)
    | none =>
      (books, Outcome.sent ⟨404, Payload.message ("The book with id " ++ id ++ " not found")⟩)
  | Except.error _ => (books, Outcome.uncaught JsError.referenceError)

/-- `router.delete("/books/:id")`, lines 280-293. `books.splice(bookIndex, 1)` removes
the element at `bookIndex`; `res.json` without `status` answers 200. Nothing in the
`try` block can throw, so the `catch` block is never entered. -/
def deleteBook (books : List Book) (id : String) : List Book × Outcome :=
  match findIndex (fun book => looseEq book.id id) books with
  | some bookIndex =>
    (books.eraseIdx bookIndex.val, Outcome.sent
      ⟨200, Payload.message ("Successfully deleted the book with id " ++ id)⟩)
  | none =>
    (books, Outcome.sent ⟨404, Payload.message ("The book with id " ++ id ++ " not found")⟩)

/-! ## Sample data -/

/-- A stored book with all four fields present. -/
def emma : Book :=
  ⟨"4", JsVal.str "Emma", JsVal.str "Austen", JsVal.str "1815-12-23", JsVal.str "A novel"⟩

/-- The request body `{title:"Dune", author:"Herbert"}`. -/
def duneBody : JsVal :=
  JsVal.obj [("title", JsVal.str "Dune"), ("author", JsVal.str "Herbert")]

/-- What `duneBody` destructures into: `publishedDate` and `summary` are `undefined`. -/
def duneFields : Fields :=
  ⟨JsVal.str "Dune", JsVal.str "Herbert", JsVal.undefined, JsVal.undefined⟩

/-- The request body `{title:"Emma", author:"Austen", publishedDate:"1815-12-23",
summary:"A novel"}`. -/
def emmaBody : JsVal :=
  JsVal.obj [("title", JsVal.str "Emma"), ("author", JsVal.str "Austen"),
    ("publishedDate", JsVal.str "1815-12-23"), ("summary", JsVal.str "A novel")]

/-- The array after two `POST`s into the empty array, of `duneBody` in millisecond 1000
and of `emmaBody` in millisecond 1001. -/
def twoCreated : List Book :=
  (postBook (postBook [] 1000 duneBody).1 1001 emmaBody).1

/-! ## Observations on an outcome -/

/-- The status code of the response a handler sent, if it sent one. -/
def Outcome.status? : Outcome → Option Nat
  | Outcome.sent r => some r.status
  | Outcome.uncaught _ => none

/-! ## Reading an id back -/

/-- The natural number a string of decimal digits denotes, most significant digit
first. -/
def decimalValue (s : String) : Nat :=
  s.data.foldl (fun acc c => 10 * acc + (c.toNat - 48)) 0

/-! ## Sequences of requests -/

/-- A request to one of the five routes, with what the handler reads from it (and, for
`POST`, the value `Date.now()` has when the handler runs). -/
inductive Request where
  | getBooks : Request
  | getBook (id : String) : Request
  | postBook (now : Int) (body : JsVal) : Request
  | putBook (id : String) (body : JsVal) : Request
  | deleteBook (id : String) : Request

/-- The router dispatching a request to its handler. -/
def handle (books : List Book) : Request → List Book × Outcome
  | Request.getBooks => getBooks books
  | Request.getBook id => getBook books id
  | Request.postBook now body => postBook books now body
  | Request.putBook id body => putBook books id body
  | Request.deleteBook id => deleteBook books id

/-- The array after a sequence of requests was handled one after the other (each
handler runs to completion before the next request is looked at). -/
def serve (books : List Book) : List Request → List Book
  | [] => books
  | r :: rest => serve (handle books r).1 rest

/-- The values of `Date.now()` that the `POST` requests of a sequence observe, in
order. A `POST` whose body does not destructure throws before it reaches `Date.now()`
and observes none. -/
def createTimes : List Request → List Int
  | [] => []
  | Request.postBook now body :: rest =>
    match destructureBody body with
    | Except.ok _ => now :: createTimes rest
    | Except.error _ => createTimes rest
  | _ :: rest => createTimes rest

/-! ## Delete on an array whose ids need not be strings

`router.delete` compares with `==` where `router.get` and `router.put` compare with
`===`. The two operators differ only on operands of different types, so this section
drops the knowledge that an id is a string: the elements of the array carry any value
as their `id`, and the comparison follows the language's two algorithms. -/

/-- An element of `books` of which nothing is assumed: its `id` is any value. -/
structure RawBook where
  id : JsVal
  title : JsVal
  author : JsVal
  publishedDate : JsVal
  summary : JsVal

/-- A book of the handlers seen as an element whose `id` happens to be a string. -/
def Book.toRaw (b : Book) : RawBook :=
  ⟨JsVal.str b.id, b.title, b.author, b.publishedDate, b.summary⟩

/-- The two conversions `==` applies to operands of different types, which are part of
the language and not of this repository. `toNumber s` is `ToNumber` of the string `s`
when that is a number the embedding can hold (an integer), `none` when it is `NaN` or
has a fraction, and so equals no `JsVal.num`. `toPrimitive v` is `ToPrimitive` of an
array or object `v`, a string (from `toString`), or `none` when the conversion throws a
`TypeError`. -/
structure Coercions where
  toNumber : String → Option Int
  toPrimitive : JsVal → Option String

/-- `x === y` where `y` is a string (`IsStrictlyEqual`): operands of different types
are not equal, two strings are equal when they are the same string. -/
def jsStrictEq (x : JsVal) (y : String) : Bool :=
  match x with
  | JsVal.str s => s == y
  | _ => false

/-- `x == y` where `y` is a string (`IsLooselyEqual`). Operands of the same type are
compared with `===`. A number is compared with `ToNumber(y)`; a boolean is first turned
into the number 1 or 0; `undefined` and `null` equal no string; an array or object is
first turned into a primitive, here a string, which is then compared with `===`, and
the `TypeError` of a failing conversion is the result of the comparison. -/
def jsLooseEq (c : Coercions) (x : JsVal) (y : String) : Except JsError Bool :=
  match x with
  | JsVal.str s => Except.ok (jsStrictEq (JsVal.str s) y)
  | JsVal.num n => Except.ok (c.toNumber y == some n)
  | JsVal.bool b => Except.ok (c.toNumber y == some (if b then 1 else 0))
  | JsVal.undefined => Except.ok false
  | JsVal.null => Except.ok false
  | JsVal.arr items =>
    match c.toPrimitive (JsVal.arr items) with
    | some s => Except.ok (jsStrictEq (JsVal.str s) y)
    | none => Except.error JsError.typeError
  | JsVal.obj props =>
    match c.toPrimitive (JsVal.obj props) with
    | some s => Except.ok (jsStrictEq (JsVal.str s) y)
    | none => Except.error JsError.typeError

/-- `books.findIndex(p)` for a callback that may throw: the elements are tried in
order, the first exception ends the search, the first `true` gives the index, and
without either the result is `none` (JavaScript's `-1`). -/
def findIndexRaw (p : RawBook → Except JsError Bool) :
    (books : List RawBook) → Except JsError (Option (Fin books.length))
  | [] => Except.ok none
  | b :: bs =>
    match p b with
    | Except.error e => Except.error e
    | Except.ok true => Except.ok (some ⟨0, Nat.succ_pos _⟩)
    | Except.ok false =>
      match findIndexRaw p bs with
      | Except.error e => Except.error e
      | Except.ok r => Except.ok (r.map Fin.succ)

/-- The body of `router.delete`, lines 280-293, with the comparison of line 283 left
open. When the comparison throws, the `catch` block is entered; it builds its message
from `id`, a `const` of the `try` block that is not in scope there, so a
`ReferenceError` leaves the handler and nothing is sent. -/
def deleteWith (eq : JsVal → String → Except JsError Bool) (books : List RawBook)
    (id : String) : List RawBook × Outcome :=
  match findIndexRaw (fun book => eq book.id id) books with
  | Except.ok (some bookIndex) =>
    (books.eraseIdx bookIndex.val, Outcome.sent
      ⟨200, Payload.message ("Successfully deleted the book with id " ++ id)⟩)
  | Except.ok none =>
    (books, Outcome.sent ⟨404, Payload.message ("The book with id " ++ id ++ " not found")⟩)
  | Except.error _ => (books, Outcome.uncaught JsError.referenceError)

/-- The handler `router.delete` as written: `book.id == id`. -/
def deleteLoose (c : Coercions) (books : List RawBook) (id : String) :
    List RawBook × Outcome :=
  deleteWith (jsLooseEq c) books id

/-- The handler `router.delete` with the comparison of `router.get` and `router.put` in
place of its own: `book.id === id`. -/
def deleteStrict (books : List RawBook) (id : String) : List RawBook × Outcome :=
  deleteWith (fun x y => Except.ok (jsStrictEq x y)) books id

/-- Conversions for the examples: `ToNumber("5")` is 5, and no other conversion is
asked for there (no other string is converted, no array or object is compared). -/
def exampleCoercions : Coercions :=
  ⟨fun s => if s = "5" then some 5 else none, fun _ => none⟩

/-! ## Facts about the primitives -/

theorem strictEq_iff (a b : String) : strictEq a b = true ↔ a = b := by
  simp [strictEq]

theorem strictEq_false_iff (a b : String) : strictEq a b = false ↔ a ≠ b := by
  simp [strictEq]

theorem looseEq_iff (a b : String) : looseEq a b = true ↔ a = b := by
  simp [looseEq, strictEq]

theorem looseEq_false_iff (a b : String) : looseEq a b = false ↔ a ≠ b := by
  simp [looseEq, strictEq]

/-- The digits are written in front of the accumulator, which is never dropped. -/
theorem natDigits_ne_nil (fuel n : Nat) (acc : List Char) :
    natDigits (fuel + 1) n acc ≠ [] := by
  induction fuel generalizing n acc with
  | zero => simp [natDigits]
  | succ k ih =>
    rw [natDigits]
    split
    · simp
    · exact ih _ _

theorem numberToString_ne_empty (now : Int) : numberToString now ≠ "" := by
  cases now with
  | ofNat m =>
    intro h
    have h2 := congrArg String.data h
    exact natDigits_ne_nil m m [] h2
  | negSucc m =>
    intro h
    have h2 := congrArg String.data h
    simp [numberToString] at h2

/-- `findIndex` answers `-1` exactly when no element satisfies the predicate. -/
theorem findIndex_eq_none_iff (p : Book → Bool) (books : List Book) :
    findIndex p books = none ↔ ∀ b ∈ books, p b = false := by
  induction books with
  | nil => simp [findIndex]
  | cons a l ih =>
    by_cases hp : p a = true
    · simp [findIndex, hp]
    · simp [findIndex, hp, ih]

/-- An index returned by `findIndex` is the position of the first element that
satisfies the predicate. -/
theorem findIndex_eq_some_split (p : Book → Bool) (books : List Book)
    (i : Fin books.length) (h : findIndex p books = some i) :
    ∃ pre b post, books = pre ++ b :: post ∧ i.val = pre.length ∧
      (∀ x ∈ pre, p x = false) ∧ p b = true ∧ books.get i = b := by
  induction books with
  | nil => exact absurd h (by simp [findIndex])
  | cons a l ih =>
    by_cases hp : p a = true
    · simp only [findIndex, hp, if_true, Option.some.injEq] at h
      subst h
      exact ⟨[], a, l, rfl, rfl, by simp, hp, rfl⟩
    · simp only [findIndex, hp, Bool.false_eq_true, if_false, Option.map_eq_some'] at h
      obtain ⟨j, hj, hij⟩ := h
      obtain ⟨pre, b, post, hl, hlen, hpre, hb, hget⟩ := ih j hj
      subst hij
      refine ⟨a :: pre, b, post, by rw [hl]; rfl, by simp [hlen], ?_, hb, ?_⟩
      · intro x hx
        rcases List.mem_cons.mp hx with rfl | hx
        · simpa using hp
        · exact hpre x hx
      · simpa using hget

/-- On a list split at its first element satisfying the predicate, `findIndex`
returns the position of that element. -/
theorem findIndex_of_split (p : Book → Bool) (pre : List Book) (b : Book) (post : List Book)
    (hpre : ∀ x ∈ pre, p x = false) (hb : p b = true) :
    ∃ i : Fin (pre ++ b :: post).length, findIndex p (pre ++ b :: post) = some i ∧
      i.val = pre.length ∧ (pre ++ b :: post).get i = b := by
  induction pre with
  | nil => exact ⟨⟨0, Nat.succ_pos _⟩, by simp [findIndex, hb], rfl, rfl⟩
  | cons a l ih =>
    have ha : p a = false := hpre a (List.mem_cons_self _ _)
    obtain ⟨i, hi, hlen, hget⟩ := ih (fun x hx => hpre x (List.mem_cons_of_mem _ hx))
    have hfind : findIndex p (a :: (l ++ b :: post)) = some i.succ := by
      simp only [findIndex, ha, Bool.false_eq_true, if_false, hi, Option.map_some']
    exact ⟨i.succ, hfind, by simp [hlen], by simpa using hget⟩

/-- A list with an element of the given id splits at the first such element. -/
theorem exists_first_with_id (books : List Book) (id : String)
    (h : ∃ b ∈ books, b.id = id) :
    ∃ pre b post, books = pre ++ b :: post ∧ (∀ x ∈ pre, x.id ≠ id) ∧ b.id = id := by
  cases hf : findIndex (fun book => strictEq book.id id) books with
  | none =>
    obtain ⟨b, hb, hid⟩ := h
    have := (findIndex_eq_none_iff _ _).mp hf b hb
    exact absurd hid ((strictEq_false_iff _ _).mp this)
  | some i =>
    obtain ⟨pre, b, post, hl, _, hpre, hb, _⟩ := findIndex_eq_some_split _ _ i hf
    exact ⟨pre, b, post, hl, fun x hx => (strictEq_false_iff _ _).mp (hpre x hx),
      (strictEq_iff _ _).mp hb⟩

/-! ## What each handler does, by case -/

theorem eraseIdx_length_append (pre : List Book) (b : Book) (post : List Book) :
    (pre ++ b :: post).eraseIdx pre.length = pre ++ post := by
  induction pre with
  | nil => rfl
  | cons a l ih => simpa using ih

theorem set_length_append (pre : List Book) (b c : Book) (post : List Book) :
    (pre ++ b :: post).set pre.length c = pre ++ c :: post := by
  induction pre with
  | nil => rfl
  | cons a l ih => simp

theorem getBook_of_absent (books : List Book) (id : String)
    (h : ∀ b ∈ books, b.id ≠ id) :
    getBook books id =
      (books, Outcome.sent ⟨404, Payload.message ("The book with id " ++ id ++ " not found")⟩) := by
  have hf : findIndex (fun book => strictEq book.id id) books = none :=
    (findIndex_eq_none_iff _ _).mpr (fun b hb => (strictEq_false_iff _ _).mpr (h b hb))
  simp only [getBook, hf]

theorem getBook_of_split (pre : List Book) (b : Book) (post : List Book) (id : String)
    (hpre : ∀ x ∈ pre, x.id ≠ id) (hb : b.id = id) :
    getBook (pre ++ b :: post) id =
      (pre ++ b :: post,
        Outcome.sent ⟨200, Payload.messageBody ("This is the book with id " ++ id) b⟩) := by
  obtain ⟨i, hi, _, hget⟩ := findIndex_of_split (fun book => strictEq book.id id) pre b post
    (fun x hx => (strictEq_false_iff _ _).mpr (hpre x hx)) ((strictEq_iff _ _).mpr hb)
  simp only [getBook, hi, hget]

theorem deleteBook_of_absent (books : List Book) (id : String)
    (h : ∀ b ∈ books, b.id ≠ id) :
    deleteBook books id =
      (books, Outcome.sent ⟨404, Payload.message ("The book with id " ++ id ++ " not found")⟩) := by
  have hf : findIndex (fun book => looseEq book.id id) books = none :=
    (findIndex_eq_none_iff _ _).mpr (fun b hb => (looseEq_false_iff _ _).mpr (h b hb))
  simp only [deleteBook, hf]

theorem deleteBook_of_split (pre : List Book) (b : Book) (post : List Book) (id : String)
    (hpre : ∀ x ∈ pre, x.id ≠ id) (hb : b.id = id) :
    deleteBook (pre ++ b :: post) id =
      (pre ++ post,
        Outcome.sent ⟨200, Payload.message ("Successfully deleted the book with id " ++ id)⟩) := by
  obtain ⟨i, hi, hlen, _⟩ := findIndex_of_split (fun book => looseEq book.id id) pre b post
    (fun x hx => (looseEq_false_iff _ _).mpr (hpre x hx)) ((looseEq_iff _ _).mpr hb)
  simp only [deleteBook, hi, hlen, eraseIdx_length_append]

theorem putBook_of_absent (books : List Book) (id : String) (body : JsVal) (f : Fields)
    (hbody : destructureBody body = Except.ok f) (h : ∀ b ∈ books, b.id ≠ id) :
    putBook books id body =
      (books, Outcome.sent ⟨404, Payload.message ("The book with id " ++ id ++ " not found")⟩) := by
  have hf : findIndex (fun book => strictEq book.id id) books = none :=
    (findIndex_eq_none_iff _ _).mpr (fun b hb => (strictEq_false_iff _ _).mpr (h b hb))
  simp only [putBook, hbody, hf]

theorem putBook_of_split (pre : List Book) (b : Book) (post : List Book) (id : String)
    (body : JsVal) (f : Fields) (hbody : destructureBody body = Except.ok f)
    (hpre : ∀ x ∈ pre, x.id ≠ id) (hb : b.id = id) :
    putBook (pre ++ b :: post) id body =
      (pre ++ ⟨b.id, f.title, f.author, f.publishedDate, f.summary⟩ :: post,
        Outcome.sent ⟨200, Payload.messageBody ("Successfully edited the book with id " ++ id)
          ⟨b.id, f.title, f.author, f.publishedDate, f.summary⟩⟩) := by
  obtain ⟨i, hi, hlen, hget⟩ := findIndex_of_split (fun book => strictEq book.id id) pre b post
    (fun x hx => (strictEq_false_iff _ _).mpr (hpre x hx)) ((strictEq_iff _ _).mpr hb)
  simp only [putBook, hbody, hi, hlen, hget, set_length_append]

theorem putBook_of_throw (books : List Book) (id : String) (body : JsVal) (e : JsError)
    (hbody : destructureBody body = Except.error e) :
    putBook books id body = (books, Outcome.uncaught JsError.referenceError) := by
  simp only [putBook, hbody]

theorem postBook_of_fields (books : List Book) (now : Int) (body : JsVal) (f : Fields)
    (hbody : destructureBody body = Except.ok f) :
    postBook books now body =
      (books ++ [⟨numberToString now, f.title, f.author, f.publishedDate, f.summary⟩],
        Outcome.sent ⟨200, Payload.book
          ⟨numberToString now, f.title, f.author, f.publishedDate, f.summary⟩⟩) := by
  simp only [postBook, hbody]

/-! ## Create then Get -/

/-- C1, as stated, fails: the array holds a book created in millisecond 5 with title
"A" (it is what one `POST` into the empty array leaves); a second `POST` in the same
millisecond, with title "B", is answered with a book of id "5", and `GET /books/5` then
answers with the older book, whose title is not "B". -/
theorem createThenGet_sameMillisecond_counterexample :
    (postBook [] 5 (JsVal.obj [("title", JsVal.str "A")])).1
      = [⟨"5", JsVal.str "A", JsVal.undefined, JsVal.undefined, JsVal.undefined⟩] ∧
    ¬ ∃ created msg got,
      (postBook [⟨"5", JsVal.str "A", JsVal.undefined, JsVal.undefined, JsVal.undefined⟩] 5
          (JsVal.obj [("title", JsVal.str "B")])).2
        = Outcome.sent ⟨200, Payload.book created⟩ ∧
      (getBook
          (postBook [⟨"5", JsVal.str "A", JsVal.undefined, JsVal.undefined, JsVal.undefined⟩] 5
            (JsVal.obj [("title", JsVal.str "B")])).1 created.id).2
        = Outcome.sent ⟨200, Payload.messageBody msg got⟩ ∧
      got.title = JsVal.str "B" := by
  refine ⟨rfl, ?_⟩
  rintro ⟨created, msg, got, h1, h2, h3⟩
  have e1 : (postBook [⟨"5", JsVal.str "A", JsVal.undefined, JsVal.undefined, JsVal.undefined⟩] 5
      (JsVal.obj [("title", JsVal.str "B")])).2
      = Outcome.sent ⟨200, Payload.book
          ⟨"5", JsVal.str "B", JsVal.undefined, JsVal.undefined, JsVal.undefined⟩⟩ := rfl
  rw [e1] at h1
  injection h1 with h1
  injection h1 with _ h1
  injection h1 with h1
  subst h1
  have e2 : (getBook
      (postBook [⟨"5", JsVal.str "A", JsVal.undefined, JsVal.undefined, JsVal.undefined⟩] 5
        (JsVal.obj [("title", JsVal.str "B")])).1 "5").2
      = Outcome.sent ⟨200, Payload.messageBody "This is the book with id 5"
          ⟨"5", JsVal.str "A", JsVal.undefined, JsVal.undefined, JsVal.undefined⟩⟩ := rfl
  rw [e2] at h2
  injection h2 with h2
  injection h2 with _ h2
  injection h2 with _ h2
  subst h2
  injection h3 with h3
  exact absurd h3 (by decide)

/-- C1, amended: when no book of the array has the id that `POST` generates from
`Date.now()`, and the request body destructures into the fields `f`, `POST` answers 200
with a book whose id is not the empty string and whose four fields are those of `f`, and
`GET` of that id on the resulting array answers 200 with that same book as its body. -/
theorem createThenGet_roundTrip (books : List Book) (now : Int) (body : JsVal) (f : Fields)
    (hbody : destructureBody body = Except.ok f)
    (hfresh : ∀ b ∈ books, b.id ≠ numberToString now) :
    ∃ created,
      (postBook books now body).2 = Outcome.sent ⟨200, Payload.book created⟩ ∧
      created.id ≠ "" ∧
      created.title = f.title ∧ created.author = f.author ∧
      created.publishedDate = f.publishedDate ∧ created.summary = f.summary ∧
      (getBook (postBook books now body).1 created.id).2
        = Outcome.sent
            ⟨200, Payload.messageBody ("This is the book with id " ++ created.id) created⟩ := by
  refine ⟨⟨numberToString now, f.title, f.author, f.publishedDate, f.summary⟩, ?_, ?_,
    rfl, rfl, rfl, rfl, ?_⟩
  · rw [postBook_of_fields books now body f hbody]
  · exact numberToString_ne_empty now
  · rw [postBook_of_fields books now body f hbody]
    have := getBook_of_split books
      ⟨numberToString now, f.title, f.author, f.publishedDate, f.summary⟩ []
      (numberToString now) hfresh rfl
    simp only [this]

/-- C1, amended, at a concrete input: the array holds one book of id "4", `POST` of
`{title:"Dune", author:"Herbert"}` arrives in millisecond 5. -/
theorem createThenGet_roundTrip_witness :
    destructureBody duneBody = Except.ok duneFields ∧
    (∀ b ∈ [emma], b.id ≠ numberToString 5) ∧
    ∃ created,
      (postBook [emma] 5 duneBody).2 = Outcome.sent ⟨200, Payload.book created⟩ ∧
      created.id ≠ "" ∧
      created.title = duneFields.title ∧ created.author = duneFields.author ∧
      created.publishedDate = duneFields.publishedDate ∧
      created.summary = duneFields.summary ∧
      (getBook (postBook [emma] 5 duneBody).1 created.id).2
        = Outcome.sent
            ⟨200, Payload.messageBody ("This is the book with id " ++ created.id) created⟩ :=
  have hfresh : ∀ b ∈ [emma], b.id ≠ numberToString 5 := by
    intro b hb
    rw [List.mem_singleton.mp hb]
    decide
  ⟨rfl, hfresh, createThenGet_roundTrip [emma] 5 duneBody duneFields rfl hfresh⟩

/-! ## Delete then Get -/

/-- C2, as stated, fails: two books created in the same millisecond share the id "5"
(the array is what two `POST`s into the empty array leave);
`DELETE /books/5` answers 200 and removes the first, and `GET /books/5` on the resulting
array still answers 200, with the second. -/
theorem deleteThenGet_duplicate_counterexample :
    (postBook (postBook [] 5 (JsVal.obj [("title", JsVal.str "A")])).1 5
        (JsVal.obj [("title", JsVal.str "B")])).1
      = [⟨"5", JsVal.str "A", JsVal.undefined, JsVal.undefined, JsVal.undefined⟩,
         ⟨"5", JsVal.str "B", JsVal.undefined, JsVal.undefined, JsVal.undefined⟩] ∧
    ¬ ((deleteBook
          [⟨"5", JsVal.str "A", JsVal.undefined, JsVal.undefined, JsVal.undefined⟩,
           ⟨"5", JsVal.str "B", JsVal.undefined, JsVal.undefined, JsVal.undefined⟩] "5").2.status?
        = some 200 →
      (getBook
          (deleteBook
            [⟨"5", JsVal.str "A", JsVal.undefined, JsVal.undefined, JsVal.undefined⟩,
             ⟨"5", JsVal.str "B", JsVal.undefined, JsVal.undefined, JsVal.undefined⟩] "5").1
          "5").2.status?
        = some 404) := by
  refine ⟨rfl, ?_⟩
  intro h
  have h404 := h rfl
  have h200 : (getBook
      (deleteBook
        [⟨"5", JsVal.str "A", JsVal.undefined, JsVal.undefined, JsVal.undefined⟩,
         ⟨"5", JsVal.str "B", JsVal.undefined, JsVal.undefined, JsVal.undefined⟩] "5").1
      "5").2.status? = some 200 := rfl
  rw [h200] at h404
  exact absurd h404 (by decide)

/-- C2, amended: when at most one book of the array has the id, and `DELETE` of that id
answers 200, `GET` of that id on the resulting array answers 404. -/
theorem deleteThenGet_notFound (books : List Book) (id : String)
    (honce : (books.map Book.id).count id ≤ 1)
    (hdel : (deleteBook books id).2.status? = some 200) :
    (getBook (deleteBook books id).1 id).2.status? = some 404 := by
  by_cases hmem : ∃ b ∈ books, b.id = id
  · obtain ⟨pre, b, post, hsplit, hpre, hb⟩ := exists_first_with_id books id hmem
    subst hsplit
    rw [deleteBook_of_split pre b post id hpre hb]
    have hcount : (post.map Book.id).count id = 0 := by
      simp only [List.map_append, List.map_cons, List.count_append, List.count_cons, hb,
        beq_self_eq_true, if_true] at honce
      omega
    have hpost : ∀ x ∈ post, x.id ≠ id := by
      intro x hx hxid
      have : id ∈ post.map Book.id := hxid ▸ List.mem_map_of_mem Book.id hx
      exact absurd hcount (by simpa using List.count_pos_iff.mpr this |>.ne')
    have habsent : ∀ x ∈ pre ++ post, x.id ≠ id := by
      intro x hx
      rcases List.mem_append.mp hx with hx | hx
      · exact hpre x hx
      · exact hpost x hx
    show (getBook (pre ++ post) id).2.status? = some 404
    rw [getBook_of_absent (pre ++ post) id habsent]
    rfl
  · have habsent : ∀ b ∈ books, b.id ≠ id := fun b hb hid => hmem ⟨b, hb, hid⟩
    rw [deleteBook_of_absent books id habsent] at hdel
    simp [Outcome.status?] at hdel

/-- C2, amended, at a concrete input: the array holds `emma` (id "4") and one book of
id "5"; `DELETE /books/4` answers 200 and `GET /books/4` then answers 404. -/
theorem deleteThenGet_notFound_witness :
    ([emma, ⟨"5", JsVal.str "Dune", JsVal.undefined, JsVal.undefined, JsVal.undefined⟩].map
        Book.id).count "4" ≤ 1 ∧
    (deleteBook
        [emma, ⟨"5", JsVal.str "Dune", JsVal.undefined, JsVal.undefined, JsVal.undefined⟩]
        "4").2.status? = some 200 ∧
    (getBook
        (deleteBook
          [emma, ⟨"5", JsVal.str "Dune", JsVal.undefined, JsVal.undefined, JsVal.undefined⟩]
          "4").1 "4").2.status? = some 404 :=
  ⟨by decide, rfl,
    deleteThenGet_notFound
      [emma, ⟨"5", JsVal.str "Dune", JsVal.undefined, JsVal.undefined, JsVal.undefined⟩] "4"
      (by decide) rfl⟩

/-! ## Update -/

/-- C3: when the array holds a book of the given id and the request body destructures
into the fields `f`, `PUT` answers 200 with a book whose id is the given id and whose
title, author, publishedDate and summary are those of `f` (so `undefined` for a key the
body does not have, whatever the stored book had), and `GET` of that id on the resulting
array answers 200 with that same book. -/
theorem putBook_fullReplace (books : List Book) (id : String) (body : JsVal) (f : Fields)
    (hbody : destructureBody body = Except.ok f)
    (hmem : ∃ b ∈ books, b.id = id) :
    ∃ updated,
      (putBook books id body).2
        = Outcome.sent
            ⟨200, Payload.messageBody ("Successfully edited the book with id " ++ id) updated⟩ ∧
      updated.id = id ∧
      updated.title = f.title ∧ updated.author = f.author ∧
      updated.publishedDate = f.publishedDate ∧ updated.summary = f.summary ∧
      (getBook (putBook books id body).1 id).2
        = Outcome.sent ⟨200, Payload.messageBody ("This is the book with id " ++ id) updated⟩ := by
  obtain ⟨pre, b, post, hsplit, hpre, hb⟩ := exists_first_with_id books id hmem
  subst hsplit
  refine ⟨⟨b.id, f.title, f.author, f.publishedDate, f.summary⟩, ?_, hb, rfl, rfl, rfl, rfl, ?_⟩
  · rw [putBook_of_split pre b post id body f hbody hpre hb]
  · rw [putBook_of_split pre b post id body f hbody hpre hb]
    show (getBook (pre ++ ⟨b.id, f.title, f.author, f.publishedDate, f.summary⟩ :: post) id).2 = _
    rw [getBook_of_split pre ⟨b.id, f.title, f.author, f.publishedDate, f.summary⟩ post id hpre hb]

/-- C3 at a concrete input: `emma` is stored with all four fields present; `PUT /books/4`
with `{title:"Dune", author:"Herbert"}` leaves it with `publishedDate` and `summary`
`undefined`. -/
theorem putBook_fullReplace_witness :
    destructureBody duneBody = Except.ok duneFields ∧
    (∃ b ∈ [emma], b.id = "4") ∧
    (∃ updated,
      (putBook [emma] "4" duneBody).2
        = Outcome.sent
            ⟨200, Payload.messageBody ("Successfully edited the book with id " ++ "4") updated⟩ ∧
      updated.id = "4" ∧
      updated.title = duneFields.title ∧ updated.author = duneFields.author ∧
      updated.publishedDate = duneFields.publishedDate ∧
      updated.summary = duneFields.summary ∧
      (getBook (putBook [emma] "4" duneBody).1 "4").2
        = Outcome.sent
            ⟨200, Payload.messageBody ("This is the book with id " ++ "4") updated⟩) ∧
    (putBook [emma] "4" duneBody).1
      = [⟨"4", JsVal.str "Dune", JsVal.str "Herbert", JsVal.undefined, JsVal.undefined⟩] :=
  ⟨rfl, ⟨emma, List.mem_singleton.mpr rfl, rfl⟩,
    putBook_fullReplace [emma] "4" duneBody duneFields rfl
      ⟨emma, List.mem_singleton.mpr rfl, rfl⟩,
    rfl⟩

/-! ## An id no stored book has -/

/-- C4: when no book of the array has the id (and, for `PUT`, the request body
destructures into fields), `GET`, `PUT` and `DELETE` of that id each answer 404, and so
none of them answers 500. -/
theorem absent_id_notFound (books : List Book) (id : String) (body : JsVal) (f : Fields)
    (hbody : destructureBody body = Except.ok f)
    (habsent : ∀ b ∈ books, b.id ≠ id) :
    (getBook books id).2.status? = some 404 ∧
    (putBook books id body).2.status? = some 404 ∧
    (deleteBook books id).2.status? = some 404 ∧
    (getBook books id).2.status? ≠ some 500 ∧
    (putBook books id body).2.status? ≠ some 500 ∧
    (deleteBook books id).2.status? ≠ some 500 := by
  rw [getBook_of_absent books id habsent, putBook_of_absent books id body f hbody habsent,
    deleteBook_of_absent books id habsent]
  simp [Outcome.status?]

/-- C4 at a concrete input: the array holds `emma` (id "4"), the requested id is "7". -/
theorem absent_id_notFound_witness :
    destructureBody duneBody = Except.ok duneFields ∧
    (∀ b ∈ [emma], b.id ≠ "7") ∧
    (getBook [emma] "7").2.status? = some 404 ∧
    (putBook [emma] "7" duneBody).2.status? = some 404 ∧
    (deleteBook [emma] "7").2.status? = some 404 ∧
    (getBook [emma] "7").2.status? ≠ some 500 ∧
    (putBook [emma] "7" duneBody).2.status? ≠ some 500 ∧
    (deleteBook [emma] "7").2.status? ≠ some 500 :=
  have habsent : ∀ b ∈ [emma], b.id ≠ "7" := by
    intro b hb
    rw [List.mem_singleton.mp hb]
    decide
  ⟨rfl, habsent, absent_id_notFound [emma] "7" duneBody duneFields rfl habsent⟩

/-! ## Delete -/

/-- C5: when some book of the array has the id, the array splits at the first such
book, `DELETE` of the id leaves exactly the books before it followed by the books after
it, which is what `GET /books` then returns, and the array is one element shorter. -/
theorem deleteBook_removes_first (books : List Book) (id : String)
    (hmem : ∃ b ∈ books, b.id = id) :
    ∃ pre b post,
      books = pre ++ b :: post ∧ (∀ x ∈ pre, x.id ≠ id) ∧ b.id = id ∧
      (getBooks books).2 = Outcome.sent ⟨200, Payload.books (pre ++ b :: post)⟩ ∧
      (getBooks (deleteBook books id).1).2 = Outcome.sent ⟨200, Payload.books (pre ++ post)⟩ ∧
      (deleteBook books id).1.length + 1 = books.length := by
  obtain ⟨pre, b, post, hsplit, hpre, hb⟩ := exists_first_with_id books id hmem
  subst hsplit
  refine ⟨pre, b, post, rfl, hpre, hb, rfl, ?_, ?_⟩
  · rw [deleteBook_of_split pre b post id hpre hb]
    rfl
  · rw [deleteBook_of_split pre b post id hpre hb]
    simp
    omega

/-- C5 at the scenario of the specification: two books are created, the first is
deleted by its id, and `GET /books` returns only the second. -/
theorem deleteBook_removes_first_witness :
    (∃ b ∈ twoCreated, b.id = "1000") ∧
    (∃ pre b post,
      twoCreated = pre ++ b :: post ∧ (∀ x ∈ pre, x.id ≠ "1000") ∧ b.id = "1000" ∧
      (getBooks twoCreated).2 = Outcome.sent ⟨200, Payload.books (pre ++ b :: post)⟩ ∧
      (getBooks (deleteBook twoCreated "1000").1).2
        = Outcome.sent ⟨200, Payload.books (pre ++ post)⟩ ∧
      (deleteBook twoCreated "1000").1.length + 1 = twoCreated.length) ∧
    (getBooks (deleteBook twoCreated "1000").1).2
      = Outcome.sent ⟨200, Payload.books
          [⟨"1001", JsVal.str "Emma", JsVal.str "Austen", JsVal.str "1815-12-23",
            JsVal.str "A novel"⟩]⟩ :=
  have hmem : ∃ b ∈ twoCreated, b.id = "1000" :=
    ⟨⟨"1000", JsVal.str "Dune", JsVal.str "Herbert", JsVal.undefined, JsVal.undefined⟩,
      List.mem_cons_self _ _, rfl⟩
  ⟨hmem, deleteBook_removes_first twoCreated "1000" hmem, rfl⟩

/-! ## Create -/

/-- C6: when the request body destructures into the fields `f`, `POST` answers 200 with
the book made of the id generated from `Date.now()` and the four fields of `f` as they
are, and `GET /books` afterwards returns what it returned before followed by exactly
that book. -/
theorem postBook_appends (books : List Book) (now : Int) (body : JsVal) (f : Fields)
    (hbody : destructureBody body = Except.ok f) :
    (postBook books now body).2
      = Outcome.sent ⟨200, Payload.book
          ⟨numberToString now, f.title, f.author, f.publishedDate, f.summary⟩⟩ ∧
    (getBooks books).2 = Outcome.sent ⟨200, Payload.books books⟩ ∧
    (getBooks (postBook books now body).1).2
      = Outcome.sent ⟨200, Payload.books
          (books ++ [⟨numberToString now, f.title, f.author, f.publishedDate, f.summary⟩])⟩ := by
  rw [postBook_of_fields books now body f hbody]
  exact ⟨rfl, rfl, rfl⟩

/-- C6 at a concrete input: `{title:"Dune", author:"Herbert"}` is posted in millisecond
5 into the array that holds `emma`. -/
theorem postBook_appends_witness :
    destructureBody duneBody = Except.ok duneFields ∧
    (postBook [emma] 5 duneBody).2
      = Outcome.sent ⟨200, Payload.book
          ⟨numberToString 5, duneFields.title, duneFields.author, duneFields.publishedDate,
            duneFields.summary⟩⟩ ∧
    (getBooks [emma]).2 = Outcome.sent ⟨200, Payload.books [emma]⟩ ∧
    (getBooks (postBook [emma] 5 duneBody).1).2
      = Outcome.sent ⟨200, Payload.books
          ([emma] ++ [⟨numberToString 5, duneFields.title, duneFields.author,
            duneFields.publishedDate, duneFields.summary⟩])⟩ :=
  ⟨rfl, postBook_appends [emma] 5 duneBody duneFields rfl⟩

/-! ## Get -/

/-- C7: `GET` of an id answers 200 exactly when some book of the array has that id; the
body is then the first book of the array with that id; and when no book has the id the
answer is 404. -/
theorem getBook_found_iff (books : List Book) (id : String) :
    ((getBook books id).2.status? = some 200 ↔ ∃ b ∈ books, b.id = id) ∧
    ((∃ b ∈ books, b.id = id) →
      ∃ pre b post,
        books = pre ++ b :: post ∧ (∀ x ∈ pre, x.id ≠ id) ∧ b ∈ books ∧ b.id = id ∧
        (getBook books id).2
          = Outcome.sent ⟨200, Payload.messageBody ("This is the book with id " ++ id) b⟩) ∧
    ((¬ ∃ b ∈ books, b.id = id) → (getBook books id).2.status? = some 404) := by
  have hfound : (∃ b ∈ books, b.id = id) →
      ∃ pre b post,
        books = pre ++ b :: post ∧ (∀ x ∈ pre, x.id ≠ id) ∧ b ∈ books ∧ b.id = id ∧
        (getBook books id).2
          = Outcome.sent ⟨200, Payload.messageBody ("This is the book with id " ++ id) b⟩ := by
    intro hmem
    obtain ⟨pre, b, post, hsplit, hpre, hb⟩ := exists_first_with_id books id hmem
    subst hsplit
    exact ⟨pre, b, post, rfl, hpre, by simp, hb, by rw [getBook_of_split pre b post id hpre hb]⟩
  have hmissing : (¬ ∃ b ∈ books, b.id = id) → (getBook books id).2.status? = some 404 := by
    intro hno
    rw [getBook_of_absent books id (fun b hb hid => hno ⟨b, hb, hid⟩)]
    rfl
  refine ⟨⟨?_, ?_⟩, hfound, hmissing⟩
  · intro h200
    by_contra hno
    rw [hmissing hno] at h200
    simp at h200
  · intro hmem
    obtain ⟨_, _, _, _, _, _, _, hres⟩ := hfound hmem
    rw [hres]
    rfl

/-! ## Ids under Update -/

/-- C8: whatever the id and the request body, the ids of the books of the array, in
order, are the same after `PUT` as before. -/
theorem putBook_preserves_ids (books : List Book) (id : String) (body : JsVal) :
    (putBook books id body).1.map Book.id = books.map Book.id := by
  cases hbody : destructureBody body with
  | error e => rw [putBook_of_throw books id body e hbody]
  | ok f =>
    by_cases hmem : ∃ b ∈ books, b.id = id
    · obtain ⟨pre, b, post, hsplit, hpre, hb⟩ := exists_first_with_id books id hmem
      subst hsplit
      rw [putBook_of_split pre b post id body f hbody hpre hb]
      simp
    · rw [putBook_of_absent books id body f hbody (fun b hb hid => hmem ⟨b, hb, hid⟩)]

/-! ## Reads -/

theorem getBook_fst (books : List Book) (id : String) : (getBook books id).1 = books := by
  unfold getBook
  split <;> rfl

/-- C9: `GET /books` and `GET /books/:id` leave the array as it is, and a second call
right after the first produces the same response. -/
theorem reads_idempotent (books : List Book) (id : String) :
    (getBooks books).1 = books ∧
    (getBook books id).1 = books ∧
    (getBooks (getBooks books).1).2 = (getBooks books).2 ∧
    (getBook (getBook books id).1 id).2 = (getBook books id).2 := by
  refine ⟨rfl, getBook_fst books id, rfl, ?_⟩
  rw [getBook_fst books id]

/-! ## The 404 message -/

/-- C10: when no book of the array has the id (and, for `PUT`, the request body
destructures into fields), the response of `GET`, of `PUT` and of `DELETE` is status 404
with the payload `{message: "The book with id " ++ id ++ " not found"}`. -/
theorem notFound_message (books : List Book) (id : String) (body : JsVal) (f : Fields)
    (hbody : destructureBody body = Except.ok f)
    (habsent : ∀ b ∈ books, b.id ≠ id) :
    (getBook books id).2
      = Outcome.sent ⟨404, Payload.message ("The book with id " ++ id ++ " not found")⟩ ∧
    (putBook books id body).2
      = Outcome.sent ⟨404, Payload.message ("The book with id " ++ id ++ " not found")⟩ ∧
    (deleteBook books id).2
      = Outcome.sent ⟨404, Payload.message ("The book with id " ++ id ++ " not found")⟩ := by
  rw [getBook_of_absent books id habsent, putBook_of_absent books id body f hbody habsent,
    deleteBook_of_absent books id habsent]
  exact ⟨rfl, rfl, rfl⟩

/-- C10 at the scenario of the specification: `GET /books/doesnotexist` answers 404
with the message "The book with id doesnotexist not found". -/
theorem notFound_message_witness :
    destructureBody duneBody = Except.ok duneFields ∧
    (∀ b ∈ [emma], b.id ≠ "doesnotexist") ∧
    ((getBook [emma] "doesnotexist").2
      = Outcome.sent
          ⟨404, Payload.message ("The book with id " ++ "doesnotexist" ++ " not found")⟩ ∧
    (putBook [emma] "doesnotexist" duneBody).2
      = Outcome.sent
          ⟨404, Payload.message ("The book with id " ++ "doesnotexist" ++ " not found")⟩ ∧
    (deleteBook [emma] "doesnotexist").2
      = Outcome.sent
          ⟨404, Payload.message ("The book with id " ++ "doesnotexist" ++ " not found")⟩) ∧
    (getBook [] "doesnotexist").2
      = Outcome.sent ⟨404, Payload.message "The book with id doesnotexist not found"⟩ :=
  have habsent : ∀ b ∈ [emma], b.id ≠ "doesnotexist" := by
    intro b hb
    rw [List.mem_singleton.mp hb]
    decide
  ⟨rfl, habsent, notFound_message [emma] "doesnotexist" duneBody duneFields rfl habsent, rfl⟩

/-! ## The decimal digits of a timestamp -/

theorem digitChar_isDigit (d : Nat) : (digitChar d).isDigit = true := by
  unfold digitChar
  have h : d % 10 < 10 := Nat.mod_lt _ (by decide)
  generalize d % 10 = m at h
  interval_cases m <;> decide

theorem digitChar_value (d : Nat) : (digitChar d).toNat - 48 = d % 10 := by
  unfold digitChar
  have h : d % 10 < 10 := Nat.mod_lt _ (by decide)
  generalize d % 10 = m at h
  interval_cases m <;> decide

/-- What `natDigits` writes in front of the accumulator, when the fuel suffices: at
least one character, decimal digits only, and read back from any start value they shift
it by their number of places and add `n`. -/
theorem natDigits_spec (fuel n : Nat) (acc : List Char) (hfuel : n < fuel) :
    ∃ ds, natDigits fuel n acc = ds ++ acc ∧ ds ≠ [] ∧ (∀ c ∈ ds, c.isDigit = true) ∧
      ∀ init, ds.foldl (fun a c => 10 * a + (c.toNat - 48)) init
        = init * 10 ^ ds.length + n := by
  induction fuel generalizing n acc with
  | zero => exact absurd hfuel (Nat.not_lt_zero _)
  | succ k ih =>
    rw [natDigits]
    by_cases hsmall : n / 10 = 0
    · rw [if_pos hsmall]
      refine ⟨[digitChar n], rfl, by simp, ?_, ?_⟩
      · intro c hc
        rw [List.mem_singleton.mp hc]
        exact digitChar_isDigit n
      · intro init
        simp only [List.foldl_cons, List.foldl_nil, List.length_singleton, pow_one,
          digitChar_value]
        omega
    · rw [if_neg hsmall]
      have hlt : n / 10 < k := by omega
      obtain ⟨ds, hds, _, hdig, hval⟩ := ih (n / 10) (digitChar n :: acc) hlt
      refine ⟨ds ++ [digitChar n], by rw [hds]; simp, by simp, ?_, ?_⟩
      · intro c hc
        rcases List.mem_append.mp hc with hc | hc
        · exact hdig c hc
        · rw [List.mem_singleton.mp hc]
          exact digitChar_isDigit n
      · intro init
        simp only [List.foldl_append, List.foldl_cons, List.foldl_nil, hval,
          digitChar_value, List.length_append, List.length_singleton, pow_succ]
        have := Nat.div_add_mod n 10
        ring_nf
        omega

/-- The id of a non-negative timestamp: not empty, decimal digits only, and its value
read back is the timestamp. -/
theorem numberToString_ofNat_spec (t : Nat) :
    (numberToString (Int.ofNat t)).data ≠ [] ∧
    (∀ c ∈ (numberToString (Int.ofNat t)).data, c.isDigit = true) ∧
    decimalValue (numberToString (Int.ofNat t)) = t := by
  obtain ⟨ds, hds, hne, hdig, hval⟩ := natDigits_spec (t + 1) t [] (Nat.lt_succ_self t)
  have hdata : (numberToString (Int.ofNat t)).data = ds := by
    simp [numberToString, hds]
  refine ⟨hdata ▸ hne, fun c hc => hdig c (hdata ▸ hc), ?_⟩
  unfold decimalValue
  rw [hdata, hval 0]
  simp

/-- The id of a negative timestamp is a minus sign followed by the digits of its
magnitude. -/
theorem numberToString_negSucc_spec (m : Nat) :
    ∃ ds, (numberToString (Int.negSucc m)).data = '-' :: ds ∧
      ds.foldl (fun a c => 10 * a + (c.toNat - 48)) 0 = m + 1 := by
  obtain ⟨ds, hds, _, _, hval⟩ := natDigits_spec (m + 2) (m + 1) [] (Nat.lt_succ_self _)
  refine ⟨ds, by simp [numberToString, hds], ?_⟩
  rw [hval 0]
  simp

/-- Two timestamps with the same id are the same timestamp. -/
theorem numberToString_injective (a b : Int) (h : numberToString a = numberToString b) :
    a = b := by
  cases a with
  | ofNat m =>
    cases b with
    | ofNat n =>
      have hm := (numberToString_ofNat_spec m).2.2
      have hn := (numberToString_ofNat_spec n).2.2
      rw [h, hn] at hm
      rw [hm]
    | negSucc n =>
      obtain ⟨ds, hds, _⟩ := numberToString_negSucc_spec n
      have hdig := (numberToString_ofNat_spec m).2.1 '-' (by rw [h, hds]; simp)
      exact absurd hdig (by decide)
  | negSucc m =>
    cases b with
    | ofNat n =>
      obtain ⟨ds, hds, _⟩ := numberToString_negSucc_spec m
      have hdig := (numberToString_ofNat_spec n).2.1 '-' (by rw [← h, hds]; simp)
      exact absurd hdig (by decide)
    | negSucc n =>
      obtain ⟨ds, hds, hval⟩ := numberToString_negSucc_spec m
      obtain ⟨es, hes, hval2⟩ := numberToString_negSucc_spec n
      rw [h, hes] at hds
      have hde : es = ds := (List.cons.inj hds).2
      subst hde
      have : m + 1 = n + 1 := hval.symm.trans hval2
      have hmn : m = n := by omega
      rw [hmn]

/-! ## The generated id -/

/-- C11: for a non-negative timestamp `t` and a request body that destructures, the
book `POST` answers with has the id `numberToString t`, which is not the empty string,
consists of decimal digits only and, read as a decimal number, is `t`; and no other
non-negative timestamp gives the same id. -/
theorem postBook_id_numeric (books : List Book) (t : Nat) (body : JsVal) (f : Fields)
    (hbody : destructureBody body = Except.ok f) :
    ∃ created,
      (postBook books (Int.ofNat t) body).2 = Outcome.sent ⟨200, Payload.book created⟩ ∧
      created.id = numberToString (Int.ofNat t) ∧
      created.id ≠ "" ∧
      (∀ c ∈ created.id.data, c.isDigit = true) ∧
      decimalValue created.id = t ∧
      (∀ t2 : Nat, numberToString (Int.ofNat t2) = created.id → t2 = t) := by
  refine ⟨⟨numberToString (Int.ofNat t), f.title, f.author, f.publishedDate, f.summary⟩,
    ?_, rfl, numberToString_ne_empty (Int.ofNat t), (numberToString_ofNat_spec t).2.1,
    (numberToString_ofNat_spec t).2.2, ?_⟩
  · rw [postBook_of_fields books (Int.ofNat t) body f hbody]
  · intro t2 h2
    have := numberToString_injective (Int.ofNat t2) (Int.ofNat t) h2
    exact Int.ofNat.inj this

/-- C11 at the scenario of the specification: `POST` of `{title:"Dune", author:"Herbert"}`
in millisecond 1700000000123 answers with a book of id "1700000000123" whose
`publishedDate` and `summary` are `undefined`. -/
theorem postBook_id_numeric_witness :
    destructureBody duneBody = Except.ok duneFields ∧
    (∃ created,
      (postBook [] (Int.ofNat 1700000000123) duneBody).2
        = Outcome.sent ⟨200, Payload.book created⟩ ∧
      created.id = numberToString (Int.ofNat 1700000000123) ∧
      created.id ≠ "" ∧
      (∀ c ∈ created.id.data, c.isDigit = true) ∧
      decimalValue created.id = 1700000000123 ∧
      (∀ t2 : Nat, numberToString (Int.ofNat t2) = created.id → t2 = 1700000000123)) ∧
    (postBook [] (Int.ofNat 1700000000123) duneBody).2
      = Outcome.sent ⟨200, Payload.book
          ⟨"1700000000123", JsVal.str "Dune", JsVal.str "Herbert", JsVal.undefined,
            JsVal.undefined⟩⟩ :=
  ⟨rfl, postBook_id_numeric [] 1700000000123 duneBody duneFields rfl, rfl⟩

/-! ## Ids along a sequence of requests -/

theorem putBook_ids (books : List Book) (id : String) (body : JsVal) :
    (putBook books id body).1.map Book.id = books.map Book.id := by
  cases hbody : destructureBody body with
  | error e => rw [putBook_of_throw books id body e hbody]
  | ok f =>
    by_cases hmem : ∃ b ∈ books, b.id = id
    · obtain ⟨pre, b, post, hsplit, hpre, hb⟩ := exists_first_with_id books id hmem
      subst hsplit
      rw [putBook_of_split pre b post id body f hbody hpre hb]
      simp
    · rw [putBook_of_absent books id body f hbody (fun b hb hid => hmem ⟨b, hb, hid⟩)]

theorem deleteBook_ids_sublist (books : List Book) (id : String) :
    ((deleteBook books id).1.map Book.id).Sublist (books.map Book.id) := by
  by_cases hmem : ∃ b ∈ books, b.id = id
  · obtain ⟨pre, b, post, hsplit, hpre, hb⟩ := exists_first_with_id books id hmem
    subst hsplit
    rw [deleteBook_of_split pre b post id hpre hb]
    exact List.Sublist.map _
      (List.Sublist.append (List.Sublist.refl pre) (List.sublist_cons_self b post))
  · rw [deleteBook_of_absent books id (fun b hb hid => hmem ⟨b, hb, hid⟩)]

/-- The invariant behind C12, from any array: if the ids of the array are pairwise
distinct, the timestamps the coming `POST`s observe are pairwise distinct, and none of
them gives an id already in the array, then the ids are pairwise distinct after the
requests. -/
theorem serve_ids_nodup (reqs : List Request) (books : List Book)
    (hids : (books.map Book.id).Nodup)
    (htimes : (createTimes reqs).Nodup)
    (hnew : ∀ t ∈ createTimes reqs, numberToString t ∉ books.map Book.id) :
    ((serve books reqs).map Book.id).Nodup := by
  induction reqs generalizing books with
  | nil => exact hids
  | cons r rest ih =>
    cases r with
    | getBooks => exact ih books hids htimes hnew
    | getBook id =>
      show ((serve (getBook books id).1 rest).map Book.id).Nodup
      rw [getBook_fst]
      exact ih books hids htimes hnew
    | putBook id body =>
      show ((serve (putBook books id body).1 rest).map Book.id).Nodup
      apply ih
      · rw [putBook_ids]
        exact hids
      · exact htimes
      · rw [putBook_ids]
        exact hnew
    | deleteBook id =>
      show ((serve (deleteBook books id).1 rest).map Book.id).Nodup
      apply ih
      · exact hids.sublist (deleteBook_ids_sublist books id)
      · exact htimes
      · intro t ht hmem
        exact hnew t ht ((deleteBook_ids_sublist books id).subset hmem)
    | postBook now body =>
      show ((serve (postBook books now body).1 rest).map Book.id).Nodup
      cases hbody : destructureBody body with
      | error e =>
        have hsame : (postBook books now body).1 = books := by simp only [postBook, hbody]
        have hct : createTimes (Request.postBook now body :: rest) = createTimes rest := by
          simp only [createTimes, hbody]
        rw [hsame]
        rw [hct] at htimes hnew
        exact ih books hids htimes hnew
      | ok f =>
        have hct : createTimes (Request.postBook now body :: rest)
            = now :: createTimes rest := by
          simp only [createTimes, hbody]
        rw [hct] at htimes hnew
        rw [postBook_of_fields books now body f hbody]
        obtain ⟨hnotin, hrest⟩ := List.nodup_cons.mp htimes
        apply ih
        · rw [List.map_append, List.map_cons, List.map_nil]
          refine List.Nodup.append hids (List.nodup_singleton _) ?_
          intro x hx hx2
          rw [List.mem_singleton.mp hx2] at hx
          exact hnew now (List.mem_cons_self _ _) hx
        · exact hrest
        · intro t ht hmem
          rw [List.map_append, List.map_cons, List.map_nil] at hmem
          rcases List.mem_append.mp hmem with hmem | hmem
          · exact hnew t (List.mem_cons_of_mem _ ht) hmem
          · have heq : t = now :=
              numberToString_injective t now (List.mem_singleton.mp hmem)
            exact hnotin (heq ▸ ht)

/-- C12: starting from the empty array, after any sequence of requests to the five
routes in which the `POST`s observe pairwise distinct values of `Date.now()`, the ids of
the books of the array are pairwise distinct. -/
theorem ids_unique_of_distinct_timestamps (reqs : List Request)
    (htimes : (createTimes reqs).Nodup) :
    ((serve [] reqs).map Book.id).Nodup :=
  serve_ids_nodup reqs [] List.nodup_nil htimes (fun _ _ h => by simp at h)

/-- C12 at a concrete sequence: two `POST`s in milliseconds 1000 and 1001, then a
`PUT`, a `DELETE`, a `GET` by id and a `GET` of the list. -/
theorem ids_unique_of_distinct_timestamps_witness :
    (createTimes
      [Request.postBook 1000 duneBody, Request.postBook 1001 emmaBody,
       Request.putBook "1000" emmaBody, Request.deleteBook "1001",
       Request.getBook "1000", Request.getBooks]).Nodup ∧
    ((serve []
      [Request.postBook 1000 duneBody, Request.postBook 1001 emmaBody,
       Request.putBook "1000" emmaBody, Request.deleteBook "1001",
       Request.getBook "1000", Request.getBooks]).map Book.id).Nodup :=
  ⟨by decide,
    ids_unique_of_distinct_timestamps
      [Request.postBook 1000 duneBody, Request.postBook 1001 emmaBody,
       Request.putBook "1000" emmaBody, Request.deleteBook "1001",
       Request.getBook "1000", Request.getBooks]
      (by decide)⟩

/-! ## A request that is answered 404 -/

/-- C13: whenever `PUT` answers 404 the array is afterwards what it was before, and
whenever `DELETE` answers 404 the array is afterwards what it was before. -/
theorem notFound_leaves_books (books : List Book) (id : String) (body : JsVal) :
    ((putBook books id body).2.status? = some 404 → (putBook books id body).1 = books) ∧
    ((deleteBook books id).2.status? = some 404 → (deleteBook books id).1 = books) := by
  constructor
  · intro h404
    cases hbody : destructureBody body with
    | error e => rw [putBook_of_throw books id body e hbody]
    | ok f =>
      by_cases hmem : ∃ b ∈ books, b.id = id
      · obtain ⟨pre, b, post, hsplit, hpre, hb⟩ := exists_first_with_id books id hmem
        subst hsplit
        rw [putBook_of_split pre b post id body f hbody hpre hb] at h404
        simp [Outcome.status?] at h404
      · rw [putBook_of_absent books id body f hbody (fun b hb hid => hmem ⟨b, hb, hid⟩)]
  · intro h404
    by_cases hmem : ∃ b ∈ books, b.id = id
    · obtain ⟨pre, b, post, hsplit, hpre, hb⟩ := exists_first_with_id books id hmem
      subst hsplit
      rw [deleteBook_of_split pre b post id hpre hb] at h404
      simp [Outcome.status?] at h404
    · rw [deleteBook_of_absent books id (fun b hb hid => hmem ⟨b, hb, hid⟩)]

/-- C13 at a concrete input: the array holds `emma` (id "4"); `PUT /books/7` and
`DELETE /books/7` answer 404 and the array still holds `emma` alone. -/
theorem notFound_leaves_books_witness :
    (putBook [emma] "7" duneBody).2.status? = some 404 ∧
    (deleteBook [emma] "7").2.status? = some 404 ∧
    (putBook [emma] "7" duneBody).1 = [emma] ∧
    (deleteBook [emma] "7").1 = [emma] :=
  ⟨rfl, rfl, (notFound_leaves_books [emma] "7" duneBody).1 rfl,
    (notFound_leaves_books [emma] "7" duneBody).2 rfl⟩

/-! ## Update in place -/

/-- C14: when some book of the array has the id and the request body destructures into
the fields `f`, the array splits at the first book with the id; after `PUT` the array
has the same length, holds the book `PUT` answered with at the position of that first
book, and holds at every other position what it held before. -/
theorem putBook_in_place (books : List Book) (id : String) (body : JsVal) (f : Fields)
    (hbody : destructureBody body = Except.ok f)
    (hmem : ∃ b ∈ books, b.id = id) :
    ∃ pre b post updated,
      books = pre ++ b :: post ∧ (∀ x ∈ pre, x.id ≠ id) ∧ b.id = id ∧
      (putBook books id body).2
        = Outcome.sent
            ⟨200, Payload.messageBody ("Successfully edited the book with id " ++ id) updated⟩ ∧
      (putBook books id body).1.length = books.length ∧
      (putBook books id body).1[pre.length]? = some updated ∧
      ∀ i, i ≠ pre.length → (putBook books id body).1[i]? = books[i]? := by
  obtain ⟨pre, b, post, hsplit, hpre, hb⟩ := exists_first_with_id books id hmem
  subst hsplit
  refine ⟨pre, b, post, ⟨b.id, f.title, f.author, f.publishedDate, f.summary⟩, rfl, hpre, hb,
    ?_, ?_, ?_, ?_⟩
  · rw [putBook_of_split pre b post id body f hbody hpre hb]
  · rw [putBook_of_split pre b post id body f hbody hpre hb]
    simp
  · rw [putBook_of_split pre b post id body f hbody hpre hb]
    show (pre ++ (⟨b.id, f.title, f.author, f.publishedDate, f.summary⟩ : Book) :: post)[pre.length]?
      = some _
    rw [List.getElem?_append_right (Nat.le_refl _)]
    simp
  · intro i hi
    rw [putBook_of_split pre b post id body f hbody hpre hb]
    show (pre ++ (⟨b.id, f.title, f.author, f.publishedDate, f.summary⟩ : Book) :: post)[i]?
      = (pre ++ b :: post)[i]?
    rw [← set_length_append pre b ⟨b.id, f.title, f.author, f.publishedDate, f.summary⟩ post]
    exact List.getElem?_set_ne (Ne.symm hi)

/-- C14 at a concrete input: the array holds a book of id "3", `emma` (id "4") and a
book of id "5"; `PUT /books/4` with `{title:"Dune", author:"Herbert"}` replaces the
middle element and leaves the two others. -/
theorem putBook_in_place_witness :
    destructureBody duneBody = Except.ok duneFields ∧
    (∃ b ∈ [⟨"3", JsVal.null, JsVal.null, JsVal.null, JsVal.null⟩, emma,
        ⟨"5", JsVal.null, JsVal.null, JsVal.null, JsVal.null⟩], b.id = "4") ∧
    (∃ pre b post updated,
      [⟨"3", JsVal.null, JsVal.null, JsVal.null, JsVal.null⟩, emma,
        ⟨"5", JsVal.null, JsVal.null, JsVal.null, JsVal.null⟩] = pre ++ b :: post ∧
      (∀ x ∈ pre, x.id ≠ "4") ∧ b.id = "4" ∧
      (putBook [⟨"3", JsVal.null, JsVal.null, JsVal.null, JsVal.null⟩, emma,
          ⟨"5", JsVal.null, JsVal.null, JsVal.null, JsVal.null⟩] "4" duneBody).2
        = Outcome.sent
            ⟨200, Payload.messageBody ("Successfully edited the book with id " ++ "4")
              updated⟩ ∧
      (putBook [⟨"3", JsVal.null, JsVal.null, JsVal.null, JsVal.null⟩, emma,
          ⟨"5", JsVal.null, JsVal.null, JsVal.null, JsVal.null⟩] "4" duneBody).1.length
        = [⟨"3", JsVal.null, JsVal.null, JsVal.null, JsVal.null⟩, emma,
            (⟨"5", JsVal.null, JsVal.null, JsVal.null, JsVal.null⟩ : Book)].length ∧
      (putBook [⟨"3", JsVal.null, JsVal.null, JsVal.null, JsVal.null⟩, emma,
          ⟨"5", JsVal.null, JsVal.null, JsVal.null, JsVal.null⟩] "4" duneBody).1[pre.length]?
        = some updated ∧
      ∀ i, i ≠ pre.length →
        (putBook [⟨"3", JsVal.null, JsVal.null, JsVal.null, JsVal.null⟩, emma,
            ⟨"5", JsVal.null, JsVal.null, JsVal.null, JsVal.null⟩] "4" duneBody).1[i]?
          = [⟨"3", JsVal.null, JsVal.null, JsVal.null, JsVal.null⟩, emma,
              (⟨"5", JsVal.null, JsVal.null, JsVal.null, JsVal.null⟩ : Book)][i]?) ∧
    (putBook [⟨"3", JsVal.null, JsVal.null, JsVal.null, JsVal.null⟩, emma,
        ⟨"5", JsVal.null, JsVal.null, JsVal.null, JsVal.null⟩] "4" duneBody).1
      = [⟨"3", JsVal.null, JsVal.null, JsVal.null, JsVal.null⟩,
         ⟨"4", JsVal.str "Dune", JsVal.str "Herbert", JsVal.undefined, JsVal.undefined⟩,
         ⟨"5", JsVal.null, JsVal.null, JsVal.null, JsVal.null⟩] :=
  have hmem : ∃ b ∈ [⟨"3", JsVal.null, JsVal.null, JsVal.null, JsVal.null⟩, emma,
      ⟨"5", JsVal.null, JsVal.null, JsVal.null, JsVal.null⟩], b.id = "4" :=
    ⟨emma, by simp, rfl⟩
  ⟨rfl, hmem, putBook_in_place _ "4" duneBody duneFields rfl hmem, rfl⟩

/-! ## A request without a body -/

/-- C15, what the code does when `req.body` is `undefined`: `POST` answers 500 with
`{message: "Unable to create new book"}` and leaves the array as it was; `PUT` leaves
the array as it was but sends nothing, a `ReferenceError` raised in its `catch` block
leaves the handler. -/
theorem absent_body_outcomes (books : List Book) (now : Int) (id : String) :
    postBook books now JsVal.undefined
      = (books, Outcome.sent ⟨500, Payload.message "Unable to create new book"⟩) ∧
    putBook books id JsVal.undefined = (books, Outcome.uncaught JsError.referenceError) ∧
    (putBook books id JsVal.undefined).2.status? ≠ some 500 :=
  ⟨rfl, rfl, by simp [putBook, destructureBody, Outcome.status?]⟩

/-! ## Create then Delete -/

/-- C16: when no book of the array has the id that `POST` generates and the request
body destructures, `DELETE` of the id of the book `POST` answered with answers 200 and
leaves the array as it was before the `POST`. When the array already holds a book with
that id (here: one book of id "5" and title "A", and a `POST` of title "B" in
millisecond 5), the same two requests remove the older book and keep the new one. -/
theorem createThenDelete_restores (books : List Book) (now : Int) (body : JsVal) (f : Fields)
    (hbody : destructureBody body = Except.ok f)
    (hfresh : ∀ b ∈ books, b.id ≠ numberToString now) :
    (∃ created,
      (postBook books now body).2 = Outcome.sent ⟨200, Payload.book created⟩ ∧
      deleteBook (postBook books now body).1 created.id
        = (books, Outcome.sent
            ⟨200, Payload.message ("Successfully deleted the book with id " ++ created.id)⟩)) ∧
    deleteBook
        (postBook [⟨"5", JsVal.str "A", JsVal.undefined, JsVal.undefined, JsVal.undefined⟩] 5
          (JsVal.obj [("title", JsVal.str "B")])).1 "5"
      = ([⟨"5", JsVal.str "B", JsVal.undefined, JsVal.undefined, JsVal.undefined⟩],
          Outcome.sent ⟨200, Payload.message "Successfully deleted the book with id 5"⟩) := by
  refine ⟨⟨⟨numberToString now, f.title, f.author, f.publishedDate, f.summary⟩, ?_, ?_⟩, rfl⟩
  · rw [postBook_of_fields books now body f hbody]
  · rw [postBook_of_fields books now body f hbody]
    have hdel := deleteBook_of_split books
      ⟨numberToString now, f.title, f.author, f.publishedDate, f.summary⟩ []
      (numberToString now) hfresh rfl
    simp only [List.append_nil] at hdel
    exact hdel

/-- C16 at a concrete input: the array holds `emma` (id "4"); `POST` of
`{title:"Dune", author:"Herbert"}` in millisecond 5, then `DELETE /books/5`. -/
theorem createThenDelete_restores_witness :
    destructureBody duneBody = Except.ok duneFields ∧
    (∀ b ∈ [emma], b.id ≠ numberToString 5) ∧
    (∃ created,
      (postBook [emma] 5 duneBody).2 = Outcome.sent ⟨200, Payload.book created⟩ ∧
      deleteBook (postBook [emma] 5 duneBody).1 created.id
        = ([emma], Outcome.sent
            ⟨200, Payload.message ("Successfully deleted the book with id " ++ created.id)⟩)) ∧
    (deleteBook (postBook [emma] 5 duneBody).1 "5").1 = [emma] :=
  have hfresh : ∀ b ∈ [emma], b.id ≠ numberToString 5 := by
    intro b hb
    rw [List.mem_singleton.mp hb]
    decide
  ⟨rfl, hfresh, (createThenDelete_restores [emma] 5 duneBody duneFields rfl hfresh).1, rfl⟩

/-! ## The comparison in Delete -/

/-- On a string, `==` calls no conversion and is `===`. -/
theorem jsLooseEq_str (c : Coercions) (s y : String) :
    jsLooseEq c (JsVal.str s) y = Except.ok (jsStrictEq (JsVal.str s) y) := rfl

/-- `findIndexRaw` looks at the callback only on the elements of the array. -/
theorem findIndexRaw_congr (p q : RawBook → Except JsError Bool) (books : List RawBook)
    (h : ∀ b ∈ books, p b = q b) :
    findIndexRaw p books = findIndexRaw q books := by
  induction books with
  | nil => rfl
  | cons a l ih =>
    have ha : p a = q a := h a (List.mem_cons_self _ _)
    have hl : findIndexRaw p l = findIndexRaw q l :=
      ih (fun b hb => h b (List.mem_cons_of_mem _ hb))
    simp only [findIndexRaw, ha, hl]

theorem deleteWith_congr (p q : JsVal → String → Except JsError Bool)
    (books : List RawBook) (id : String) (h : ∀ b ∈ books, p b.id id = q b.id id) :
    deleteWith p books id = deleteWith q books id := by
  have hfind : findIndexRaw (fun book => p book.id id) books
      = findIndexRaw (fun book => q book.id id) books :=
    findIndexRaw_congr _ _ books h
  simp only [deleteWith, hfind]

theorem map_toRaw_eraseIdx (books : List Book) (i : Nat) :
    (books.map Book.toRaw).eraseIdx i = (books.eraseIdx i).map Book.toRaw := by
  induction books generalizing i with
  | nil => rfl
  | cons a l ih =>
    cases i with
    | zero => rfl
    | succ k => simp [List.eraseIdx, ih]

/-- On the image of an array of books, the strict search never throws and finds the
position that `findIndex` finds with the comparison of `deleteBook`. -/
theorem findIndexRaw_toRaw (books : List Book) (id : String) :
    ∃ r, findIndexRaw (fun book => Except.ok (jsStrictEq book.id id)) (books.map Book.toRaw)
        = Except.ok r ∧
      r.map Fin.val = (findIndex (fun book => looseEq book.id id) books).map Fin.val := by
  induction books with
  | nil => exact ⟨none, rfl, rfl⟩
  | cons a l ih =>
    obtain ⟨r, hr, hval⟩ := ih
    by_cases ha : a.id = id
    · have h1 : jsStrictEq (Book.toRaw a).id id = true := by
        simp [Book.toRaw, jsStrictEq, ha]
      have h2 : looseEq a.id id = true := (looseEq_iff _ _).mpr ha
      refine ⟨some ⟨0, Nat.succ_pos _⟩, ?_, ?_⟩
      · simp only [List.map_cons, findIndexRaw, h1]
      · simp only [findIndex, h2, if_true, Option.map_some']
    · have h1 : jsStrictEq (Book.toRaw a).id id = false := by
        simp [Book.toRaw, jsStrictEq, ha]
      have h2 : looseEq a.id id = false := (looseEq_false_iff _ _).mpr ha
      refine ⟨r.map Fin.succ, ?_, ?_⟩
      · simp only [List.map_cons, findIndexRaw, h1, hr]
      · simp only [findIndex, h2, Bool.false_eq_true, if_false, Option.map_map]
        cases r with
        | none =>
          cases hf : findIndex (fun book => looseEq book.id id) l with
          | none => rfl
          | some j => rw [hf] at hval; simp at hval
        | some i =>
          cases hf : findIndex (fun book => looseEq book.id id) l with
          | none => rw [hf] at hval; simp at hval
          | some j =>
            rw [hf] at hval
            simp only [Option.map_some', Option.some.injEq] at hval
            simp [hval]

/-- `deleteStrict` on the image of an array of books does what `deleteBook` does on
the array. -/
theorem deleteStrict_toRaw (books : List Book) (id : String) :
    deleteStrict (books.map Book.toRaw) id
      = ((deleteBook books id).1.map Book.toRaw, (deleteBook books id).2) := by
  obtain ⟨r, hr, hval⟩ := findIndexRaw_toRaw books id
  cases r with
  | none =>
    cases hf : findIndex (fun book => looseEq book.id id) books with
    | none => simp only [deleteStrict, deleteWith, hr, deleteBook, hf]
    | some j => rw [hf] at hval; simp at hval
  | some i =>
    cases hf : findIndex (fun book => looseEq book.id id) books with
    | none => rw [hf] at hval; simp at hval
    | some j =>
      rw [hf] at hval
      simp only [Option.map_some', Option.some.injEq] at hval
      simp only [deleteStrict, deleteWith, hr, deleteBook, hf, hval, map_toRaw_eraseIdx]

/-- An array whose ids are all strings is the image of an array of books. -/
theorem exists_books_of_string_ids (raw : List RawBook)
    (hstr : ∀ b ∈ raw, ∃ s, b.id = JsVal.str s) :
    ∃ books : List Book, raw = books.map Book.toRaw := by
  induction raw with
  | nil => exact ⟨[], rfl⟩
  | cons a l ih =>
    obtain ⟨books, hbooks⟩ := ih (fun b hb => hstr b (List.mem_cons_of_mem _ hb))
    obtain ⟨s, hs⟩ := hstr a (List.mem_cons_self _ _)
    refine ⟨⟨s, a.title, a.author, a.publishedDate, a.summary⟩ :: books, ?_⟩
    cases a with
    | mk aid t au pd su =>
      simp only at hs
      subst hs
      simp [Book.toRaw, hbooks]

/-- C17: on every array whose elements all have a string as their `id`, and for every
string id of the request, `router.delete` as written, with the coercing `==`, gives the
same array and the same response as it would with `===`, the comparison of `router.get`
and `router.put`, whatever the conversions of `==` do. Such an array is an array of
books of the handlers; the result is that of `deleteBook` on it, and `DELETE` of the id
answers 200 exactly when `GET` of the id on the same array does. -/
theorem deleteLoose_eq_deleteStrict (c : Coercions) (raw : List RawBook) (id : String)
    (hstr : ∀ b ∈ raw, ∃ s, b.id = JsVal.str s) :
    deleteLoose c raw id = deleteStrict raw id ∧
    ∃ books : List Book,
      raw = books.map Book.toRaw ∧
      deleteLoose c raw id = ((deleteBook books id).1.map Book.toRaw, (deleteBook books id).2) ∧
      ((deleteLoose c raw id).2.status? = some 200 ↔
        (getBook books id).2.status? = some 200) := by
  have hsame : deleteLoose c raw id = deleteStrict raw id := by
    apply deleteWith_congr
    intro b hb
    obtain ⟨s, hs⟩ := hstr b hb
    rw [hs]
    exact jsLooseEq_str c s id
  obtain ⟨books, hbooks⟩ := exists_books_of_string_ids raw hstr
  have htyped : deleteLoose c raw id
      = ((deleteBook books id).1.map Book.toRaw, (deleteBook books id).2) := by
    rw [hsame, hbooks]
    exact deleteStrict_toRaw books id
  refine ⟨hsame, books, hbooks, htyped, ?_⟩
  rw [htyped]
  show (deleteBook books id).2.status? = some 200 ↔ (getBook books id).2.status? = some 200
  by_cases hmem : ∃ b ∈ books, b.id = id
  · obtain ⟨pre, b, post, hsplit, hpre, hb⟩ := exists_first_with_id books id hmem
    subst hsplit
    rw [deleteBook_of_split pre b post id hpre hb, getBook_of_split pre b post id hpre hb]
    exact ⟨fun _ => rfl, fun _ => rfl⟩
  · have habsent : ∀ b ∈ books, b.id ≠ id := fun b hb hid => hmem ⟨b, hb, hid⟩
    rw [deleteBook_of_absent books id habsent, getBook_of_absent books id habsent]

/-- C17 at a concrete input: the array left by two `POST`s (ids "1000" and "1001") and
`DELETE /books/1000`. The last part shows that the restriction to string ids is needed:
on an element whose `id` is the number 5, `DELETE /books/5` answers 200 with `==`, for
any conversions with `ToNumber("5")` = 5, and 404 with `===`. -/
theorem deleteLoose_eq_deleteStrict_witness :
    (∀ b ∈ twoCreated.map Book.toRaw, ∃ s, b.id = JsVal.str s) ∧
    (deleteLoose exampleCoercions (twoCreated.map Book.toRaw) "1000"
        = deleteStrict (twoCreated.map Book.toRaw) "1000" ∧
      ∃ books : List Book,
        twoCreated.map Book.toRaw = books.map Book.toRaw ∧
        deleteLoose exampleCoercions (twoCreated.map Book.toRaw) "1000"
          = ((deleteBook books "1000").1.map Book.toRaw, (deleteBook books "1000").2) ∧
        ((deleteLoose exampleCoercions (twoCreated.map Book.toRaw) "1000").2.status?
            = some 200 ↔
          (getBook books "1000").2.status? = some 200)) ∧
    (deleteLoose exampleCoercions (twoCreated.map Book.toRaw) "1000").2.status? = some 200 ∧
    (∀ c : Coercions, c.toNumber "5" = some 5 →
      (deleteLoose c
          [⟨JsVal.num 5, JsVal.undefined, JsVal.undefined, JsVal.undefined, JsVal.undefined⟩]
          "5").2.status? = some 200 ∧
      (deleteStrict
          [⟨JsVal.num 5, JsVal.undefined, JsVal.undefined, JsVal.undefined, JsVal.undefined⟩]
          "5").2.status? = some 404) :=
  have hstr : ∀ b ∈ twoCreated.map Book.toRaw, ∃ s, b.id = JsVal.str s := by
    intro b hb
    obtain ⟨b0, _, hb0⟩ := List.mem_map.mp hb
    exact ⟨b0.id, by rw [← hb0]; rfl⟩
  ⟨hstr,
    deleteLoose_eq_deleteStrict exampleCoercions (twoCreated.map Book.toRaw) "1000" hstr,
    rfl,
    fun c hc => ⟨by simp [deleteLoose, deleteWith, findIndexRaw, jsLooseEq, hc,
      Outcome.status?], rfl⟩⟩

end SwaggerCrud
